import Mathlib

/-!
Verification development for the FLUX-Finetune repository
(src/finetune.py and src/generate.py).

The embedding is shallow: the Python functions are translated into
executable Lean definitions. Network I/O is modelled by returning the
HTTP request the code would issue (an `HttpRequest` value); a polling
loop is modelled as a function over a scripted list of status
responses, one list element per status fetch. The environment
(`BFL_API_KEY`) and the filesystem are passed explicitly.
-/

namespace FluxFinetune

/-- A JSON-ish scalar value appearing in request payloads and response
bodies (Python str / int / float / bool). Floats are modelled as
rationals, which is exact for every value the code manipulates. -/
inductive Val where
  | str (s : String)
  | int (n : Int)
  | rat (q : ℚ)
  | bool (b : Bool)
deriving DecidableEq

/-- Python truthiness of a `Val` (`if not x` takes the other branch iff
`truthy x`). -/
def Val.truthy : Val → Bool
  | .str s => s ≠ ""
  | .int n => n ≠ 0
  | .rat q => q ≠ 0
  | .bool b => b

/-- An HTTP request the code is about to issue: URL, headers, JSON body
(for POST) and query parameters (for GET). -/
structure HttpRequest where
  url : String
  headers : List (String × String)
  body : List (String × Val)
  params : List (String × String)
deriving DecidableEq

/-- Client-side failures raised before any network call:
`missingApiKey` models the `ValueError` raised when neither the
`api_key` argument nor the `BFL_API_KEY` environment variable is
present; `zipNotFound` models the `FileNotFoundError`; `invalidMode`
models the `AssertionError` from the mode check. -/
inductive FtError where
  | missingApiKey
  | zipNotFound (path : String)
  | invalidMode
deriving DecidableEq

/-- The key-resolution block duplicated at the top of
`request_finetuning` and `finetune_progress` in src/finetune.py:
use the explicit argument if given, else fall back to the
`BFL_API_KEY` environment variable, else raise. -/
def resolve_api_key : Option String → Option String → Except FtError String
  | some k, _ => .ok k
  | none, some k => .ok k
  | none, none => .error FtError.missingApiKey

/-- The enumerated caption modes accepted by the assertion in
`request_finetuning` (src/finetune.py line 51). -/
def modeValues : List String := ["character", "product", "style", "general"]

/-- The parameters of `request_finetuning` (src/finetune.py lines 9-21). -/
structure FinetuneParams where
  zip_path : String
  finetune_comment : String
  trigger_word : String
  mode : String
  api_key : Option String
  iterations : Int
  learning_rate : Option ℚ
  captioning : Bool
  priority : String
  finetune_type : String
  lora_rank : Int
deriving DecidableEq

/-- The base64 alphabet character for a 6-bit value, standard encoding. -/
def base64Char (n : Nat) : Char :=
  if n < 26 then Char.ofNat (65 + n)
  else if n < 52 then Char.ofNat (97 + (n - 26))
  else if n < 62 then Char.ofNat (48 + (n - 52))
  else if n = 62 then Char.ofNat 43
  else Char.ofNat 47

/-- Standard base64 encoding of a byte sequence (models
`base64.b64encode` on the zip contents, src/finetune.py line 56). -/
def b64encode : List Nat → List Char
  | [] => []
  | [a] => [base64Char (a / 4), base64Char (a % 4 * 16), Char.ofNat 61, Char.ofNat 61]
  | [a, b] => [base64Char (a / 4), base64Char (a % 4 * 16 + b / 16),
      base64Char (b % 16 * 4), Char.ofNat 61]
  | a :: b :: c :: rest =>
      base64Char (a / 4) :: base64Char (a % 4 * 16 + b / 16) ::
      base64Char (b % 16 * 4 + c / 64) :: base64Char (c % 64) :: b64encode rest

/-- `request_finetuning` (src/finetune.py lines 9-81): resolve the API
key, check the zip file exists, assert the mode is in its enumerated
set, base64-encode the zip, and build the POST request to
`/v1/finetune`; `learning_rate` is added to the payload only when
supplied. `env` is the `BFL_API_KEY` environment variable, `fs` maps a
path to the bytes of the file stored there (`none` = no such file).
Returning `.ok req` means the code reaches `requests.post` with exactly
the request `req`; returning `.error e` means the exception `e` is
raised before any network call. -/
def request_finetuning (env : Option String) (fs : String → Option (List Nat))
    (p : FinetuneParams) : Except FtError HttpRequest :=
  match resolve_api_key p.api_key env with
  | .error e => .error e
  | .ok key =>
    match fs p.zip_path with
    | none => .error (FtError.zipNotFound p.zip_path)
    | some bytes =>
      if p.mode ∈ modeValues then
        .ok { url := "https://api.us1.bfl.ai/v1/finetune",
              headers := [("Content-Type", "application/json"), ("X-Key", key)],
              body := [("finetune_comment", Val.str p.finetune_comment),
                       ("trigger_word", Val.str p.trigger_word),
                       ("file_data", Val.str (String.mk (b64encode bytes))),
                       ("iterations", Val.int p.iterations),
                       ("mode", Val.str p.mode),
                       ("captioning", Val.bool p.captioning),
                       ("priority", Val.str p.priority),
                       ("lora_rank", Val.int p.lora_rank),
                       ("finetune_type", Val.str p.finetune_type)]
                ++ (match p.learning_rate with
                    | some lr => [("learning_rate", Val.rat lr)]
                    | none => []),
              params := [] }
      else .error FtError.invalidMode

/-- `finetune_progress` (src/finetune.py lines 83-114): resolve the API
key and build the GET request to `/v1/get_result` with the finetune id
as a query parameter. -/
def finetune_progress (env : Option String) (finetune_id : String)
    (api_key : Option String) : Except FtError HttpRequest :=
  match resolve_api_key api_key env with
  | .error e => .error e
  | .ok key =>
      .ok { url := "https://api.us1.bfl.ai/v1/get_result",
            headers := [("Content-Type", "application/json"), ("X-Key", key)],
            body := [],
            params := [("id", finetune_id)] }

/-- The parameters of `generate_image` (src/generate.py lines 8-20). -/
structure GenerateParams where
  finetune_id : String
  api_key : String
  prompt : String
  finetune_strength : ℚ
  steps : Int
  guidance : ℚ
  width : Int
  height : Int
  seed : Option Int
  safety_tolerance : Int
  output_format : String
deriving DecidableEq

/-- `generate_image` (src/generate.py lines 8-51): build the POST
request to `/v1/flux-pro-finetuned`; `seed` is added to the payload
only when supplied. The function performs no validation of its own. -/
def generate_image (p : GenerateParams) : HttpRequest :=
  { url := "https://api.us1.bfl.ai/v1/flux-pro-finetuned",
    headers := [("Content-Type", "application/json"), ("X-Key", p.api_key)],
    body := [("finetune_id", Val.str p.finetune_id),
             ("finetune_strength", Val.rat p.finetune_strength),
             ("prompt", Val.str p.prompt),
             ("steps", Val.int p.steps),
             ("guidance", Val.rat p.guidance),
             ("width", Val.int p.width),
             ("height", Val.int p.height),
             ("safety_tolerance", Val.int p.safety_tolerance),
             ("output_format", Val.str p.output_format)]
      ++ (match p.seed with
          | some s => [("seed", Val.int s)]
          | none => []),
    params := [] }

/-- Outcome of the credential guard at the top of the inference app's
`main` (src/generate.py lines 125-128): an empty API key stops the app
(`st.stop`) before any request is built; otherwise `generate_image`
runs and the submission request is issued. -/
inductive GenSubmit where
  | stoppedNoKey
  | submitted (req : HttpRequest)
deriving DecidableEq

/-- The inference submission path of `main` in src/generate.py:
`if not api_key: st.warning(...); st.stop()`, else the request built by
`generate_image` is posted. -/
def gen_main_submit (p : GenerateParams) : GenSubmit :=
  if p.api_key = "" then .stoppedNoKey else .submitted (generate_image p)

/-- The `progress` field of a poll response as Python sees it:
absent (`data.get` returned `None`), a number (int or float, modelled
as ℚ), or some non-numeric value. -/
inductive PyProg where
  | none
  | num (q : ℚ)
  | other
deriving DecidableEq

/-- One scripted response of `GET /v1/get_result`: the `status` field
(`Option` because `data.get("status")` may be `None`) and the
`progress` field. -/
structure PollResponse where
  status : Option String
  progress : PyProg
deriving DecidableEq

/-- Display events the inference polling loop emits via Streamlit. -/
inductive InfEvent where
  | successMsg
  | taskNotFoundMsg
  | requestModeratedMsg
  | contentModeratedMsg
  | errorMsg
  | progressDisplay (q : ℚ)
  | statusInfo (s : Option String)
deriving DecidableEq

/-- The tagged terminal outcome of the inference polling loop: which of
the five terminal branches returned. -/
inductive InfStatusTag where
  | ready
  | taskNotFound
  | requestModerated
  | contentModerated
  | error
deriving DecidableEq

/-- The non-terminal (else) branch of `check_inference`
(src/generate.py lines 97-105): show the progress bar and a percentage
when `progress` is a number in [0, 1], otherwise just report the raw
status. -/
def nonTerminalEvent (status : Option String) (pv : PyProg) : InfEvent :=
  match pv with
  | .num q => if 0 ≤ q ∧ q ≤ 1 then .progressDisplay q else .statusInfo status
  | _ => .statusInfo status

/-- `check_inference` (src/generate.py lines 53-105) run against a
scripted list of responses, one element per status fetch. Returns
`some (tag, fetches, events)`: the terminal branch taken, the number of
status fetches issued, and the display events in order. Returns `none`
when the script runs out while the loop still wants to fetch again
(the real loop would block on the network). -/
def check_inference : List PollResponse → Option (InfStatusTag × Nat × List InfEvent)
  | [] => none
  | r :: rest =>
    if r.status = some "Ready" then some (.ready, 1, [.successMsg])
    else if r.status = some "Task not found" then some (.taskNotFound, 1, [.taskNotFoundMsg])
    else if r.status = some "Request Moderated" then
      some (.requestModerated, 1, [.requestModeratedMsg])
    else if r.status = some "Content Moderated" then
      some (.contentModerated, 1, [.contentModeratedMsg])
    else if r.status = some "Error" then some (.error, 1, [.errorMsg])
    else
      match check_inference rest with
      | none => none
      | some (t, n, evs) => some (t, n + 1, nonTerminalEvent r.status r.progress :: evs)

/-- Display events the fine-tune polling loop emits via Streamlit. -/
inductive FtEvent where
  | successMsg
  | statusInfo (s : Option String)
deriving DecidableEq

/-- The polling loop at the end of `main` in src/finetune.py
(lines 227-235), run against a scripted list of `status` field values,
one element per call to `finetune_progress`. The loop breaks only when
the status equals "Ready"; on any other status it reports the status
and polls again. Returns `some (fetches, events)` when the loop
terminates within the script, `none` when the script runs out. -/
def finetune_poll_loop : List (Option String) → Option (Nat × List FtEvent)
  | [] => none
  | s :: rest =>
    if s = some "Ready" then some (1, [FtEvent.successMsg])
    else
      match finetune_poll_loop rest with
      | none => none
      | some (n, evs) => some (n + 1, FtEvent.statusInfo s :: evs)

/-- Python `dict` assignment `data[k] = v` on a dict represented as an
insertion-ordered association list: replace the value in place if the
key exists, else append. -/
def dict_insert : List (String × String) → String → String → List (String × String)
  | [], k, v => [(k, v)]
  | (k0, v0) :: rest, k, v =>
      if k0 = k then (k, v) :: rest else (k0, v0) :: dict_insert rest k v

/-- First value stored under a key in an association list (Python
`dict` lookup for dicts built by `dict_insert`, which keeps keys
unique). -/
def dict_lookup : List (String × String) → String → Option String
  | [], _ => none
  | (k0, v0) :: rest, k => if k0 = k then some v0 else dict_lookup rest k

/-- `store_finetune_id` (src/finetune.py lines 116-135): load the
registry file if it exists (else start from the empty dict), set
`data[finetune_comment] = finetune_id`, and write the whole mapping
back. `file` is the current content of finetune_id.json (`none` = file
absent); the result is the content written back. -/
def store_finetune_id (file : Option (List (String × String)))
    (finetune_comment finetune_id : String) : List (String × String) :=
  dict_insert (file.getD []) finetune_comment finetune_id

/-- `read_finetunes` (src/generate.py lines 107-116): the stored
mapping, or the empty dict when the registry file does not exist. -/
def read_finetunes (file : Option (List (String × String))) : List (String × String) :=
  file.getD []

/-- Python `dict` lookup on a response body whose values are `Val`s. -/
def val_lookup : List (String × Val) → String → Option Val
  | [], _ => none
  | (k0, v0) :: rest, k => if k0 = k then some v0 else val_lookup rest k

/-- What the app does right after a successful (2xx) submission
response: `raisedMalformed` would be raising a MalformedResponse
exception (never produced by this code), `reportedAndReturned` is the
observed behavior of showing a warning/error message and returning
early, `proceeded` carries the extracted job identifier and continues
(store + poll for fine-tune, poll for inference). -/
inductive SubmitFollowup where
  | raisedMalformed
  | reportedAndReturned
  | proceeded (v : Val)
deriving DecidableEq

/-- src/finetune.py lines 216-219: `finetune_id = response.get("finetune_id");
if not finetune_id: st.warning(...); return`. -/
def ft_after_submit (resp : List (String × Val)) : SubmitFollowup :=
  match val_lookup resp "finetune_id" with
  | none => .reportedAndReturned
  | some v => if v.truthy then .proceeded v else .reportedAndReturned

/-- src/generate.py lines 181-184: `inference_id = generate_response.get("id");
if not inference_id: st.error(...); return`. -/
def gen_after_submit (resp : List (String × Val)) : SubmitFollowup :=
  match val_lookup resp "id" with
  | none => .reportedAndReturned
  | some v => if v.truthy then .proceeded v else .reportedAndReturned

/-! ### Result extraction (src/generate.py lines 191-205)

The `result` field of the final poll response is sometimes a structured
JSON object and sometimes that object JSON-encoded as a string; the
code calls `json.loads` on the string form. The claims only concern
flat objects whose values are strings, so `json.loads` is modelled by
a parser for that fragment of JSON (the exact output format of
`json.dumps` on such objects: `{"k": "v", ...}`), restricted to
escape-free strings. -/

/-- Double-quote character. -/
def dquote : Char := Char.ofNat 34

/-- Backslash character. -/
def bslash : Char := Char.ofNat 92

/-- Opening curly brace character. -/
def lbrace : Char := Char.ofNat 123

/-- Closing curly brace character. -/
def rbrace : Char := Char.ofNat 125

/-- A string that JSON-encodes to itself between quotes: no quote and
no backslash, so `json.loads` performs no escape processing on it. -/
def jsonSafe (s : String) : Bool :=
  s.data.all fun c => c ≠ dquote ∧ c ≠ bslash

/-- Every key and value of the flat object is `jsonSafe`. -/
def objSafe (o : List (String × String)) : Bool :=
  o.all fun kv => jsonSafe kv.1 && jsonSafe kv.2

/-- The characters of one `"key": "value"` item as `json.dumps` emits it. -/
def encodePairChars (k v : String) : List Char :=
  dquote :: k.data ++ dquote :: ':' :: ' ' :: dquote :: v.data ++ [dquote]

/-- The characters of the items of a nonempty object, comma-separated,
up to and including the closing brace. -/
def encodeInner : List (String × String) → List Char
  | [] => [rbrace]
  | [(k, v)] => encodePairChars k v ++ [rbrace]
  | (k, v) :: rest => encodePairChars k v ++ ',' :: ' ' :: encodeInner rest

/-- `json.dumps` of a flat string-valued object (default separators). -/
def encodeObj (o : List (String × String)) : String :=
  match o with
  | [] => String.mk [lbrace, rbrace]
  | _ => String.mk (lbrace :: encodeInner o)

/-- Scan the characters of a string literal after the opening quote,
accumulating until the closing quote. -/
def scanStr : List Char → List Char → Option (String × List Char)
  | [], _ => none
  | c :: rest, acc =>
      if c = dquote then some (String.mk acc.reverse, rest) else scanStr rest (c :: acc)

/-- Parse a leading `"..."` string literal, returning the string and
the remaining characters. -/
def parseStrLit : List Char → Option (String × List Char)
  | [] => none
  | c :: rest => if c = dquote then scanStr rest [] else none

/-! Parsing the comma-separated items of a nonempty object, consuming
the closing brace, which must end the input. Fuel bounds the number of
items. `parseItems` parses a key, `parseAfterKey` the `": "` separator
and the value, `parseAfterVal` the `"}"` terminator or the `", "` item
separator. -/

mutual

/-- Parse the items of a nonempty object body, starting at a key. -/
def parseItems : Nat → List Char → Option (List (String × String))
  | 0, _ => none
  | fuel + 1, cs => (parseStrLit cs).bind fun kc => parseAfterKey fuel kc.1 kc.2

/-- Parse the `": "` separator and the value of one item. -/
def parseAfterKey : Nat → String → List Char → Option (List (String × String))
  | fuel, k, ':' :: ' ' :: cs2 =>
      (parseStrLit cs2).bind fun vc => parseAfterVal fuel k vc.1 vc.2
  | _, _, _ => none

/-- Parse what follows one item: the closing brace or the `", "`
separator and the remaining items. -/
def parseAfterVal : Nat → String → String → List Char → Option (List (String × String))
  | fuel, k, v, cs3 =>
    if cs3 = [rbrace] then some [(k, v)]
    else
      match cs3 with
      | ',' :: ' ' :: cs4 => (parseItems fuel cs4).map fun rest => (k, v) :: rest
      | _ => none

end

/-- `json.loads` restricted to the fragment the claims exercise: a flat
object with string keys and string values in `json.dumps` output
format. Returns `none` where `json.loads` would raise
`JSONDecodeError` on this fragment. -/
def parseObj (s : String) : Option (List (String × String)) :=
  match s.data with
  | [] => none
  | c :: cs =>
    if c = lbrace then
      if cs = [rbrace] then some [] else parseItems cs.length cs
    else none

/-- The shape of the `result` field as the code distinguishes it:
a structured object, a string (to be JSON-decoded), or absent
(`final_data.get("result", {})` then yields the empty dict). -/
inductive ResultField where
  | obj (o : List (String × String))
  | str (s : String)
  | absent
deriving DecidableEq

/-- The outcome of the extraction block of `main` in src/generate.py. -/
inductive ExtractOutcome where
  | image (url : String)
  | noImageUrlError
  | badFormatError (raw : String)
deriving DecidableEq

/-- `result.get("sample")` followed by `if sample_url:` — display the
image at the URL, or report that no image URL was found (an empty
string is falsy and also reports). -/
def extract_sample (o : List (String × String)) : ExtractOutcome :=
  match dict_lookup o "sample" with
  | some u => if u = "" then .noImageUrlError else .image u
  | none => .noImageUrlError

/-- src/generate.py lines 191-205: take the `result` field (default
`{}`), JSON-decode it if it is a string (reporting a format error if
that fails), then read the `sample` URL out of it. -/
def extract_result : ResultField → ExtractOutcome
  | .absent => extract_sample []
  | .obj o => extract_sample o
  | .str s =>
    match parseObj s with
    | none => .badFormatError s
    | some o => extract_sample o

/-! ### Concrete sample inputs used for witnesses and counterexamples -/

/-- A filesystem holding the two-byte file [1, 2] at every path. -/
def fsSample : String → Option (List Nat) := fun _ => some [1, 2]

/-- A fully valid fine-tune parameter set (the defaults of
`request_finetuning`, with an explicit key and learning rate). -/
def pSample : FinetuneParams :=
  { zip_path := "data.zip", finetune_comment := "cat-v1", trigger_word := "TOK",
    mode := "character", api_key := some "k", iterations := 300,
    learning_rate := some 1, captioning := true, priority := "quality",
    finetune_type := "full", lora_rank := 32 }

/-- `pSample` with no learning rate supplied. -/
def pNoLr : FinetuneParams := { pSample with learning_rate := none }

/-- `pSample` with no API key argument. -/
def pNoKey : FinetuneParams := { pSample with api_key := none }

/-- `pSample` with an out-of-enum mode. -/
def pBadMode : FinetuneParams := { pSample with mode := "invalid" }

/-- `pSample` with a valid mode but out-of-enum priority, finetune
type and lora rank (and no learning rate). -/
def pEnumInvalid : FinetuneParams :=
  { zip_path := "data.zip", finetune_comment := "cat-v1", trigger_word := "TOK",
    mode := "character", api_key := some "k", iterations := 300,
    learning_rate := none, captioning := true, priority := "bogus",
    finetune_type := "unknown", lora_rank := 99 }

/-- A valid inference parameter set with a seed supplied. -/
def gSample : GenerateParams :=
  { finetune_id := "ft-123", api_key := "k", prompt := "image of a TOK",
    finetune_strength := 1, steps := 40, guidance := 2, width := 512,
    height := 768, seed := some 7, safety_tolerance := 2, output_format := "jpeg" }

/-- `gSample` with no seed supplied. -/
def gNoSeed : GenerateParams := { gSample with seed := none }

/-- The request `request_finetuning` builds for `pSample` on `fsSample`. -/
def reqSample : HttpRequest :=
  (request_finetuning none fsSample pSample).toOption.getD ⟨"", [], [], []⟩

/-- The request `request_finetuning` builds for `pNoLr` on `fsSample`. -/
def reqNoLr : HttpRequest :=
  (request_finetuning none fsSample pNoLr).toOption.getD ⟨"", [], [], []⟩

/-- The request `request_finetuning` builds for `pEnumInvalid` on `fsSample`. -/
def reqEnumInvalid : HttpRequest :=
  (request_finetuning none fsSample pEnumInvalid).toOption.getD ⟨"", [], [], []⟩

/-! ### Helper lemmas -/

theorem dict_lookup_insert_self (l : List (String × String)) (k v : String) :
    dict_lookup (dict_insert l k v) k = some v := by
  induction l with
  | nil => simp [dict_insert, dict_lookup]
  | cons hd tl ih =>
    obtain ⟨k0, v0⟩ := hd
    by_cases h : k0 = k
    · simp [dict_insert, dict_lookup, h]
    · simp [dict_insert, dict_lookup, h, ih]

theorem dict_lookup_insert_other (l : List (String × String)) (k v k' : String)
    (h : k' ≠ k) : dict_lookup (dict_insert l k v) k' = dict_lookup l k' := by
  have hne : k ≠ k' := fun hh => h hh.symm
  induction l with
  | nil => simp [dict_insert, dict_lookup, hne]
  | cons hd tl ih =>
    obtain ⟨k0, v0⟩ := hd
    by_cases h0 : k0 = k
    · subst h0
      simp [dict_insert, dict_lookup, hne]
    · simp [dict_insert, dict_lookup, h0, ih]

/-! ### Claims -/

/-- C1 (amended): in the inference polling loop (`check_inference`),
each of the four terminal-failure status strings takes its own branch,
producing its own distinct tagged outcome and returning after exactly
one status fetch regardless of what responses would follow; the
fine-tune polling loop in `main` of src/finetune.py, however, treats
all four strings as non-terminal — it reports the status and fetches
again, terminating only on "Ready". -/
theorem c1_terminal_failure_handling :
    (∀ pv rest, check_inference (⟨some "Task not found", pv⟩ :: rest) =
      some (InfStatusTag.taskNotFound, 1, [InfEvent.taskNotFoundMsg])) ∧
    (∀ pv rest, check_inference (⟨some "Request Moderated", pv⟩ :: rest) =
      some (InfStatusTag.requestModerated, 1, [InfEvent.requestModeratedMsg])) ∧
    (∀ pv rest, check_inference (⟨some "Content Moderated", pv⟩ :: rest) =
      some (InfStatusTag.contentModerated, 1, [InfEvent.contentModeratedMsg])) ∧
    (∀ pv rest, check_inference (⟨some "Error", pv⟩ :: rest) =
      some (InfStatusTag.error, 1, [InfEvent.errorMsg])) ∧
    (∀ rest, finetune_poll_loop (some "Task not found" :: rest) =
      (finetune_poll_loop rest).map
        (fun p => (p.1 + 1, FtEvent.statusInfo (some "Task not found") :: p.2))) ∧
    (∀ rest, finetune_poll_loop (some "Request Moderated" :: rest) =
      (finetune_poll_loop rest).map
        (fun p => (p.1 + 1, FtEvent.statusInfo (some "Request Moderated") :: p.2))) ∧
    (∀ rest, finetune_poll_loop (some "Content Moderated" :: rest) =
      (finetune_poll_loop rest).map
        (fun p => (p.1 + 1, FtEvent.statusInfo (some "Content Moderated") :: p.2))) ∧
    (∀ rest, finetune_poll_loop (some "Error" :: rest) =
      (finetune_poll_loop rest).map
        (fun p => (p.1 + 1, FtEvent.statusInfo (some "Error") :: p.2))) := by
  refine ⟨?_, ?_, ?_, ?_, ?_, ?_, ?_, ?_⟩
  · intro pv rest; simp +decide [check_inference]
  · intro pv rest; simp +decide [check_inference]
  · intro pv rest; simp +decide [check_inference]
  · intro pv rest; simp +decide [check_inference]
  all_goals
    intro rest
    cases h : finetune_poll_loop rest with
    | none => simp +decide [finetune_poll_loop, h]
    | some p => simp +decide [finetune_poll_loop, h]

/-- C1 counterexample: the claim quantifies over BOTH polling loops,
but the fine-tune loop does not return on "Error": after fetching a
response with status "Error" it demands a further status fetch (the
one-element script is exhausted, `none`), and on the script
["Error", "Ready"] it performs 2 status fetches, the second one after
the terminal-failure response. -/
theorem c1_counterexample :
    finetune_poll_loop [some "Error"] = none ∧
    finetune_poll_loop [some "Error", some "Ready"] =
      some (2, [FtEvent.statusInfo (some "Error"), FtEvent.successMsg]) := by
  exact ⟨rfl, rfl⟩

/-- C2 (amended): when a successful submission response lacks the
expected job-identifier field ("finetune_id" for fine-tune, "id" for
inference), the app reports the condition to the user (st.warning
resp. st.error) and returns early — it does not proceed to registry
storage or polling, but it also does not raise a MalformedResponse
error. -/
theorem c2_missing_id_reported (ftresp genresp : List (String × Val))
    (hf : val_lookup ftresp "finetune_id" = none)
    (hg : val_lookup genresp "id" = none) :
    ft_after_submit ftresp = SubmitFollowup.reportedAndReturned ∧
    gen_after_submit genresp = SubmitFollowup.reportedAndReturned := by
  constructor
  · simp [ft_after_submit, hf]
  · simp [gen_after_submit, hg]

/-- C2 witness: the empty response body lacks both identifier fields. -/
theorem c2_missing_id_reported_witness :
    ft_after_submit [] = SubmitFollowup.reportedAndReturned ∧
    gen_after_submit [] = SubmitFollowup.reportedAndReturned :=
  c2_missing_id_reported [] [] rfl rfl

/-- C2 counterexample: on a 2xx response body without the identifier
field, the code's follow-up is the report-and-return branch, which is
a different outcome from raising a MalformedResponse error — the
operation returns without raising. -/
theorem c2_counterexample :
    ft_after_submit [] = SubmitFollowup.reportedAndReturned ∧
    gen_after_submit [] = SubmitFollowup.reportedAndReturned ∧
    decide (SubmitFollowup.reportedAndReturned = SubmitFollowup.raisedMalformed) = false := by
  exact ⟨rfl, rfl, rfl⟩

/-- C5: on the scripted status sequence [Pending, Pending, Ready],
both polling loops emit a non-terminal display event exactly twice
(one per non-terminal response) and return success on the third fetch;
the fetch count is 3 whatever responses would follow, so no status
fetch happens after the terminal response. -/
theorem c5_scripted_pending_pending_ready :
    (∀ pv1 pv2 pv3 rest,
      check_inference (⟨some "Pending", pv1⟩ :: ⟨some "Pending", pv2⟩ ::
          ⟨some "Ready", pv3⟩ :: rest) =
        some (InfStatusTag.ready, 3,
          [nonTerminalEvent (some "Pending") pv1,
           nonTerminalEvent (some "Pending") pv2, InfEvent.successMsg])) ∧
    (∀ rest, finetune_poll_loop (some "Pending" :: some "Pending" :: some "Ready" :: rest) =
      some (3, [FtEvent.statusInfo (some "Pending"), FtEvent.statusInfo (some "Pending"),
                FtEvent.successMsg])) := by
  constructor
  · intro pv1 pv2 pv3 rest
    simp +decide [check_inference]
  · intro rest
    simp +decide [finetune_poll_loop]

/-- C7: registry sequence put(a, id1); put(b, id2); put(a, id3) on any
starting file state: afterwards `a` maps to id3 and `b` to id2; after
the first two puts both mappings are present; and the final put
changed no mapping other than `a`'s. -/
theorem c7_registry_overwrite (file : Option (List (String × String)))
    (a b id1 id2 id3 : String) (hab : a ≠ b) :
    dict_lookup (read_finetunes (some (store_finetune_id
      (some (store_finetune_id (some (store_finetune_id file a id1)) b id2)) a id3))) a =
        some id3 ∧
    dict_lookup (read_finetunes (some (store_finetune_id
      (some (store_finetune_id (some (store_finetune_id file a id1)) b id2)) a id3))) b =
        some id2 ∧
    dict_lookup (read_finetunes (some (store_finetune_id
      (some (store_finetune_id file a id1)) b id2))) a = some id1 ∧
    dict_lookup (read_finetunes (some (store_finetune_id
      (some (store_finetune_id file a id1)) b id2))) b = some id2 ∧
    (∀ c, c ≠ a → dict_lookup (store_finetune_id
        (some (store_finetune_id (some (store_finetune_id file a id1)) b id2)) a id3) c =
      dict_lookup (store_finetune_id (some (store_finetune_id file a id1)) b id2) c) := by
  refine ⟨?_, ?_, ?_, ?_, ?_⟩
  · simp [read_finetunes, store_finetune_id, dict_lookup_insert_self]
  · simp [read_finetunes, store_finetune_id,
      dict_lookup_insert_other _ _ _ _ (fun h => hab h.symm),
      dict_lookup_insert_self]
  · simp [read_finetunes, store_finetune_id,
      dict_lookup_insert_other _ _ _ _ hab, dict_lookup_insert_self]
  · simp [read_finetunes, store_finetune_id, dict_lookup_insert_self]
  · intro c hc
    simp [store_finetune_id, dict_lookup_insert_other _ _ _ _ hc]

/-- C7 witness at concrete names and ids, starting from no registry
file; the frame clause is instantiated at the name "b". -/
theorem c7_registry_overwrite_witness :
    dict_lookup (read_finetunes (some (store_finetune_id
      (some (store_finetune_id (some (store_finetune_id none "a" "id1")) "b" "id2"))
        "a" "id3"))) "a" = some "id3" ∧
    dict_lookup (read_finetunes (some (store_finetune_id
      (some (store_finetune_id (some (store_finetune_id none "a" "id1")) "b" "id2"))
        "a" "id3"))) "b" = some "id2" ∧
    dict_lookup (store_finetune_id
      (some (store_finetune_id (some (store_finetune_id none "a" "id1")) "b" "id2"))
        "a" "id3") "b" =
      dict_lookup (store_finetune_id (some (store_finetune_id none "a" "id1")) "b" "id2") "b" := by
  have h := c7_registry_overwrite none "a" "b" "id1" "id2" "id3" (by decide)
  exact ⟨h.1, h.2.1, h.2.2.2.2 "b" (by decide)⟩

/-- C8: with the credential absent — `api_key` argument `None` and the
`BFL_API_KEY` environment variable unset for the fine-tune submission,
an empty API key text input for the inference app — the operation
fails on the client side (ValueError resp. st.stop) without any
network request being built or issued, whatever the other arguments
and whatever the filesystem contains. -/
theorem c8_missing_credential_fails_before_network :
    (∀ fs zp fc tw mode it lr cap pr fty lrk,
      request_finetuning none fs
        ⟨zp, fc, tw, mode, none, it, lr, cap, pr, fty, lrk⟩ =
        Except.error FtError.missingApiKey) ∧
    (∀ fid prompt fstr steps guidance w h seed stol ofmt,
      gen_main_submit ⟨fid, "", prompt, fstr, steps, guidance, w, h, seed, stol, ofmt⟩ =
        GenSubmit.stoppedNoKey) := by
  constructor
  · intro fs zp fc tw mode it lr cap pr fty lrk
    rfl
  · intro fid prompt fstr steps guidance w h seed stol ofmt
    rfl

/-- C9: on a non-terminal poll response whose progress field is
absent, non-numeric, or a number outside [0, 1], the inference loop
does not fail: it emits the raw-status info event (not a progress-bar
update) and continues exactly as the remaining script dictates, with
one more fetch. -/
theorem c9_bad_progress_ignored (status : Option String) (pv : PyProg)
    (rest : List PollResponse)
    (hterm : status ∉ [some "Ready", some "Task not found", some "Request Moderated",
      some "Content Moderated", some "Error"])
    (hbad : pv = PyProg.none ∨ pv = PyProg.other ∨
      ∃ q, pv = PyProg.num q ∧ ¬(0 ≤ q ∧ q ≤ 1)) :
    nonTerminalEvent status pv = InfEvent.statusInfo status ∧
    check_inference (⟨status, pv⟩ :: rest) =
      (check_inference rest).map
        (fun r => (r.1, r.2.1 + 1, InfEvent.statusInfo status :: r.2.2)) := by
  simp only [List.mem_cons, List.mem_singleton, not_or] at hterm
  obtain ⟨h1, h2, h3, h4, h5, -⟩ := hterm
  have hev : nonTerminalEvent status pv = InfEvent.statusInfo status := by
    rcases hbad with h | h | ⟨q, hq, hout⟩
    · simp [nonTerminalEvent, h]
    · simp [nonTerminalEvent, h]
    · simp [nonTerminalEvent, hq, hout]
  refine ⟨hev, ?_⟩
  cases h : check_inference rest with
  | none => simp [check_inference, h1, h2, h3, h4, h5, h, hev]
  | some r => simp [check_inference, h1, h2, h3, h4, h5, h, hev]

/-- C9 witness: status "Pending" with the out-of-range progress value
2, followed by a Ready response. -/
theorem c9_bad_progress_ignored_witness :
    nonTerminalEvent (some "Pending") (PyProg.num 2) = InfEvent.statusInfo (some "Pending") ∧
    check_inference [⟨some "Pending", PyProg.num 2⟩, ⟨some "Ready", PyProg.none⟩] =
      (check_inference [⟨some "Ready", PyProg.none⟩]).map
        (fun r => (r.1, r.2.1 + 1, InfEvent.statusInfo (some "Pending") :: r.2.2)) :=
  c9_bad_progress_ignored (some "Pending") (PyProg.num 2) [⟨some "Ready", PyProg.none⟩]
    (by decide) (Or.inr (Or.inr ⟨2, rfl, by decide⟩))

/-- C3 (amended): of the four enumerated fine-tune fields only `mode`
is validated client-side: once the key resolves and the zip file
exists, an out-of-enum mode fails (the assertion) with no network
call, while out-of-enum priority, finetune type and lora rank values
are accepted unchecked and sent in the payload. -/
theorem c3_only_mode_validated (env : Option String) (fs : String → Option (List Nat))
    (p : FinetuneParams) (k : String) (bytes : List Nat)
    (hk : resolve_api_key p.api_key env = Except.ok k)
    (hz : fs p.zip_path = some bytes) :
    (p.mode ∉ modeValues → request_finetuning env fs p = Except.error FtError.invalidMode) ∧
    (p.mode ∈ modeValues →
      (request_finetuning env fs p).toOption.isSome = true ∧
      val_lookup ((request_finetuning env fs p).toOption.getD ⟨"", [], [], []⟩).body
        "priority" = some (Val.str p.priority) ∧
      val_lookup ((request_finetuning env fs p).toOption.getD ⟨"", [], [], []⟩).body
        "finetune_type" = some (Val.str p.finetune_type) ∧
      val_lookup ((request_finetuning env fs p).toOption.getD ⟨"", [], [], []⟩).body
        "lora_rank" = some (Val.int p.lora_rank)) := by
  constructor
  · intro hm
    simp [request_finetuning, hk, hz, hm]
  · intro hm
    cases hlr : p.learning_rate with
    | none =>
      simp +decide [request_finetuning, hk, hz, hm, hlr, val_lookup,
        Except.toOption, Option.isSome, Option.getD]
    | some lr =>
      simp +decide [request_finetuning, hk, hz, hm, hlr, val_lookup,
        Except.toOption, Option.isSome, Option.getD]

/-- C3 witness: with the sample filesystem, an out-of-enum mode is
rejected, while out-of-enum priority/type/rank are submitted. -/
theorem c3_only_mode_validated_witness :
    request_finetuning none fsSample pBadMode = Except.error FtError.invalidMode ∧
    (request_finetuning none fsSample pEnumInvalid).toOption.isSome = true := by
  have h1 := (c3_only_mode_validated none fsSample pBadMode "k" [1, 2] rfl rfl).1 (by decide)
  have h2 := (c3_only_mode_validated none fsSample pEnumInvalid "k" [1, 2] rfl rfl).2 (by decide)
  exact ⟨h1, h2.1⟩

/-- C3 counterexample: a fine-tune request whose priority is "bogus",
finetune type is "unknown" and lora rank is 99 — all outside their
enumerated sets — does NOT fail: `request_finetuning` reaches the
network call, and the constructed payload carries the out-of-enum
values verbatim. -/
theorem c3_counterexample :
    (request_finetuning none fsSample pEnumInvalid).toOption.isSome = true ∧
    val_lookup reqEnumInvalid.body "priority" = some (Val.str "bogus") ∧
    val_lookup reqEnumInvalid.body "finetune_type" = some (Val.str "unknown") ∧
    val_lookup reqEnumInvalid.body "lora_rank" = some (Val.int 99) := by
  exact ⟨rfl, rfl, rfl, rfl⟩

/-- C4: the wire payloads preserve every supplied scalar field exactly
and handle the optional fields by presence: `learning_rate` (fine-tune)
and `seed` (inference) are looked up to `none` — no entry under that
key at all — exactly when the caller left them unset, and to the
supplied value when set. -/
theorem c4_optional_and_exact_fields :
    (∀ env fs p req, request_finetuning env fs p = Except.ok req →
      val_lookup req.body "learning_rate" = Option.map Val.rat p.learning_rate ∧
      val_lookup req.body "finetune_comment" = some (Val.str p.finetune_comment) ∧
      val_lookup req.body "trigger_word" = some (Val.str p.trigger_word) ∧
      val_lookup req.body "iterations" = some (Val.int p.iterations) ∧
      val_lookup req.body "mode" = some (Val.str p.mode) ∧
      val_lookup req.body "captioning" = some (Val.bool p.captioning) ∧
      val_lookup req.body "priority" = some (Val.str p.priority) ∧
      val_lookup req.body "lora_rank" = some (Val.int p.lora_rank) ∧
      val_lookup req.body "finetune_type" = some (Val.str p.finetune_type)) ∧
    (∀ p : GenerateParams,
      val_lookup (generate_image p).body "seed" = Option.map Val.int p.seed ∧
      val_lookup (generate_image p).body "finetune_id" = some (Val.str p.finetune_id) ∧
      val_lookup (generate_image p).body "finetune_strength" =
        some (Val.rat p.finetune_strength) ∧
      val_lookup (generate_image p).body "prompt" = some (Val.str p.prompt) ∧
      val_lookup (generate_image p).body "steps" = some (Val.int p.steps) ∧
      val_lookup (generate_image p).body "guidance" = some (Val.rat p.guidance) ∧
      val_lookup (generate_image p).body "width" = some (Val.int p.width) ∧
      val_lookup (generate_image p).body "height" = some (Val.int p.height) ∧
      val_lookup (generate_image p).body "safety_tolerance" =
        some (Val.int p.safety_tolerance) ∧
      val_lookup (generate_image p).body "output_format" =
        some (Val.str p.output_format)) := by
  constructor
  · intro env fs p req h
    rcases hk : resolve_api_key p.api_key env with e | key
    · simp [request_finetuning, hk] at h
    rcases hz : fs p.zip_path with _ | bytes
    · simp [request_finetuning, hk, hz] at h
    by_cases hm : p.mode ∈ modeValues
    · simp only [request_finetuning, hk, hz] at h
      rw [if_pos hm] at h
      simp only [Except.ok.injEq] at h
      subst h
      cases hlr : p.learning_rate with
      | none => simp +decide [val_lookup, hlr]
      | some lr => simp +decide [val_lookup, hlr]
    · simp [request_finetuning, hk, hz, hm] at h
  · intro p
    cases hs : p.seed with
    | none => simp +decide [generate_image, val_lookup, hs]
    | some s => simp +decide [generate_image, val_lookup, hs]

/-- C4 witness: concrete fine-tune requests with and without a
learning rate and concrete inference requests with and without a seed;
the supplied values come back exactly and the unset optional fields
have no payload entry. -/
theorem c4_optional_and_exact_fields_witness :
    val_lookup reqSample.body "learning_rate" = some (Val.rat 1) ∧
    val_lookup reqNoLr.body "learning_rate" = none ∧
    val_lookup reqSample.body "finetune_comment" = some (Val.str "cat-v1") ∧
    val_lookup reqSample.body "iterations" = some (Val.int 300) ∧
    val_lookup (generate_image gSample).body "seed" = some (Val.int 7) ∧
    val_lookup (generate_image gNoSeed).body "seed" = none ∧
    val_lookup (generate_image gSample).body "prompt" =
      some (Val.str "image of a TOK") := by
  have h1 := c4_optional_and_exact_fields.1 none fsSample pSample reqSample rfl
  have h2 := c4_optional_and_exact_fields.1 none fsSample pNoLr reqNoLr rfl
  have h3 := c4_optional_and_exact_fields.2 gSample
  have h4 := c4_optional_and_exact_fields.2 gNoSeed
  exact ⟨h1.1, h2.1, h1.2.1, h1.2.2.2.1, h3.1, h4.1, h3.2.2.2.1⟩

/-- C10: when `request_finetuning` or `finetune_progress` gets no
explicit `api_key` argument it falls back to the `BFL_API_KEY`
environment variable: with the variable set, the call behaves exactly
as if that value had been passed; with both absent it fails with the
missing-credential error; and with an explicit argument the
missing-credential error is never raised. -/
theorem c10_env_fallback (envk fid : String) (env : Option String)
    (fs : String → Option (List Nat)) (p : FinetuneParams) (k : String) :
    (p.api_key = none →
      request_finetuning (some envk) fs p =
        request_finetuning (some envk) fs { p with api_key := some envk }) ∧
    (p.api_key = none →
      request_finetuning none fs p = Except.error FtError.missingApiKey) ∧
    (p.api_key = some k →
      request_finetuning env fs p ≠ Except.error FtError.missingApiKey) ∧
    (finetune_progress (some envk) fid none = finetune_progress (some envk) fid (some envk)) ∧
    (finetune_progress none fid none = Except.error FtError.missingApiKey) ∧
    (∀ kk, finetune_progress env fid (some kk) ≠ Except.error FtError.missingApiKey) := by
  obtain ⟨zp, fc, tw, mode, ak, it, lr, cap, pr, fty, lrk⟩ := p
  refine ⟨?_, ?_, ?_, rfl, rfl, ?_⟩
  · intro h
    simp only at h
    subst h
    rfl
  · intro h
    simp only at h
    subst h
    rfl
  · intro h
    simp only at h
    subst h
    rcases hz : fs zp with _ | bytes <;>
      by_cases hm : mode ∈ modeValues <;>
      simp [request_finetuning, resolve_api_key, hz, hm]
  · intro kk
    simp [finetune_progress, resolve_api_key]

/-- C10 witness: with the environment variable set to "ek" and no
argument, both functions behave as if "ek" had been passed; with both
absent they fail with the missing-credential error. -/
theorem c10_env_fallback_witness :
    request_finetuning (some "ek") fsSample pNoKey =
      request_finetuning (some "ek") fsSample { pNoKey with api_key := some "ek" } ∧
    request_finetuning none fsSample pNoKey = Except.error FtError.missingApiKey ∧
    finetune_progress (some "ek") "fid" none = finetune_progress (some "ek") "fid" (some "ek") ∧
    finetune_progress none "fid" none = Except.error FtError.missingApiKey := by
  have h := c10_env_fallback "ek" "fid" none fsSample pNoKey "k"
  exact ⟨h.1 rfl, h.2.1 rfl, h.2.2.2.1, h.2.2.2.2.1⟩

theorem jsonSafe_no_quote {s : String} (h : jsonSafe s = true) :
    ∀ c ∈ s.data, c ≠ dquote := by
  simp only [jsonSafe, List.all_eq_true, decide_eq_true_eq] at h
  intro c hc
  exact (h c hc).1

theorem scanStr_no_quote (cs : List Char) :
    ∀ (acc rest : List Char), (∀ c ∈ cs, c ≠ dquote) →
      scanStr (cs ++ dquote :: rest) acc = some (String.mk (acc.reverse ++ cs), rest) := by
  induction cs with
  | nil =>
    intro acc rest _
    simp [scanStr]
  | cons c cs ih =>
    intro acc rest h
    have hc : c ≠ dquote := h c (List.mem_cons_self c cs)
    simp only [List.cons_append, scanStr, if_neg hc, List.append_eq]
    rw [ih (c :: acc) rest (fun x hx => h x (List.mem_cons_of_mem c hx))]
    simp

theorem parseStrLit_quoted (s : String) (rest : List Char)
    (hs : ∀ c ∈ s.data, c ≠ dquote) :
    parseStrLit (dquote :: (s.data ++ dquote :: rest)) = some (s, rest) := by
  simp only [parseStrLit, if_pos rfl]
  rw [scanStr_no_quote s.data [] rest hs]
  simp

theorem parseItems_encodeInner :
    ∀ (o : List (String × String)) (fuel : Nat), objSafe o = true → o ≠ [] →
      o.length ≤ fuel → parseItems fuel (encodeInner o) = some o := by
  intro o
  induction o with
  | nil =>
    intro fuel _ hne _
    exact absurd rfl hne
  | cons hd tl ih =>
    intro fuel hsafe _ hlen
    obtain ⟨k, v⟩ := hd
    simp only [objSafe, List.all_cons, Bool.and_eq_true] at hsafe
    obtain ⟨⟨hk, hv⟩, htl⟩ := hsafe
    cases fuel with
    | zero => simp at hlen
    | succ f =>
      cases tl with
      | nil =>
        have hshape : encodeInner [(k, v)] =
            dquote :: (k.data ++ dquote :: ':' :: ' ' :: dquote ::
              (v.data ++ dquote :: [rbrace])) := by
          simp [encodeInner, encodePairChars]
        rw [hshape]
        simp only [parseItems]
        rw [parseStrLit_quoted k _ (jsonSafe_no_quote hk)]
        simp only [Option.some_bind, parseAfterKey]
        rw [parseStrLit_quoted v _ (jsonSafe_no_quote hv)]
        simp [parseAfterVal]
      | cons hd2 tl2 =>
        have hshape : encodeInner ((k, v) :: hd2 :: tl2) =
            dquote :: (k.data ++ dquote :: ':' :: ' ' :: dquote ::
              (v.data ++ dquote :: ',' :: ' ' :: encodeInner (hd2 :: tl2))) := by
          simp [encodeInner, encodePairChars]
        rw [hshape]
        simp only [parseItems]
        rw [parseStrLit_quoted k _ (jsonSafe_no_quote hk)]
        simp only [Option.some_bind, parseAfterKey]
        rw [parseStrLit_quoted v _ (jsonSafe_no_quote hv)]
        simp only [Option.some_bind, parseAfterVal]
        have hne2 : (',' :: ' ' :: encodeInner (hd2 :: tl2)) ≠ [rbrace] := by simp
        rw [if_neg hne2]
        have hlen2 : (hd2 :: tl2).length ≤ f := by
          simp only [List.length_cons] at hlen ⊢
          omega
        rw [ih f htl (by simp) hlen2]
        simp

theorem length_le_encodeInner (o : List (String × String)) :
    o.length ≤ (encodeInner o).length := by
  induction o with
  | nil => simp [encodeInner]
  | cons hd tl ih =>
    obtain ⟨k, v⟩ := hd
    cases tl with
    | nil =>
      simp [encodeInner, encodePairChars]
    | cons hd2 tl2 =>
      simp only [encodeInner, encodePairChars, List.length_append, List.length_cons,
        List.length_singleton] at ih ⊢
      omega

theorem two_le_length_encodeInner (k v : String) (tl : List (String × String)) :
    2 ≤ (encodeInner ((k, v) :: tl)).length := by
  cases tl with
  | nil => simp [encodeInner, encodePairChars]; omega
  | cons hd2 tl2 => simp [encodeInner, encodePairChars]; omega

theorem parseObj_encodeObj (o : List (String × String)) (ho : objSafe o = true) :
    parseObj (encodeObj o) = some o := by
  cases o with
  | nil => simp [encodeObj, parseObj]
  | cons hd tl =>
    obtain ⟨k, v⟩ := hd
    have hne2 : encodeInner ((k, v) :: tl) ≠ [rbrace] := by
      intro hcon
      have h2 := two_le_length_encodeInner k v tl
      rw [hcon] at h2
      simp at h2
    simp only [encodeObj, parseObj, if_pos rfl]
    rw [if_neg hne2]
    exact parseItems_encodeInner ((k, v) :: tl) _ ho (by simp)
      (length_le_encodeInner _)

/-- C6: on any flat string-valued result object free of escape
characters, the extraction block of `main` produces the same outcome
whether the `result` field arrives as the structured object or as its
JSON string encoding — in particular the same `sample` artifact
reference. -/
theorem c6_result_normalization (o : List (String × String)) (ho : objSafe o = true) :
    extract_result (ResultField.str (encodeObj o)) = extract_result (ResultField.obj o) := by
  simp [extract_result, parseObj_encodeObj o ho]

/-- C6 witness: the spec's concrete example — a result object mapping
"sample" to an image URL — normalizes identically from both encodings,
to the URL itself. -/
theorem c6_result_normalization_witness :
    extract_result (ResultField.str (encodeObj [("sample", "https://x/img.png")])) =
      extract_result (ResultField.obj [("sample", "https://x/img.png")]) ∧
    extract_result (ResultField.obj [("sample", "https://x/img.png")]) =
      ExtractOutcome.image "https://x/img.png" :=
  ⟨c6_result_normalization [("sample", "https://x/img.png")] (by decide), rfl⟩

end FluxFinetune
